import Mathlib

/-!
Verification of the ss2wp post-conversion pipeline (src/ss2wp.py).

The script converts one blog post page into a minimal HTML fragment:
fetch, parse, transform (image replacement, class stripping), render,
write.  We embed the document tree manipulated by BeautifulSoup as a
mutual inductive (`Node` / `NodeList`), and each Python function of the
script as a Lean function over that tree.  Network and filesystem
effects are passed in explicitly as oracles (url to fetched document,
url to download outcome), so the whole pipeline is a pure function whose
outputs (written file, stderr warnings, attempted downloads) can be
reasoned about.
-/

mutual
/-- An HTML document node as exposed by BeautifulSoup: either a
navigable string or a tag with a name, an attribute list and children.
`NodeList` is the children spine (kept mutual with `Node` so that all
tree functions are structurally recursive and kernel-computable). -/
inductive Node where
  | text (s : String)
  | elem (tag : String) (attrs : List (String × String)) (children : NodeList)
deriving DecidableEq
inductive NodeList where
  | nil
  | cons (hd : Node) (tl : NodeList)
deriving DecidableEq
end

/-- Children of a node (a string has none). -/
def Node.children : Node → NodeList
  | .text _ => .nil
  | .elem _ _ cs => cs

/-- Tag name of a node; BeautifulSoup strings have no name, modelled "". -/
def Node.tagName : Node → String
  | .text _ => ""
  | .elem t _ _ => t

/-- True when the node is a tag (element), not a navigable string. -/
def Node.isTag : Node → Bool
  | .text _ => false
  | .elem _ _ _ => true

/-- Attribute lookup, modelling `tag.get(key)` / `tag[key]`. -/
def getAttr (n : Node) (key : String) : Option String :=
  match n with
  | .text _ => none
  | .elem _ a _ => (a.find? (fun kv => kv.1 == key)).map (fun kv => kv.2)

mutual
/-- The node itself followed by all its descendants, in document
(preorder) order — the order in which BeautifulSoup yields matches. -/
def nodeSelfAll : Node → List Node
  | .text s => [.text s]
  | .elem t a cs => .elem t a cs :: nodeListAll cs
/-- All nodes of a children spine and their descendants, preorder. -/
def nodeListAll : NodeList → List Node
  | .nil => []
  | .cons c cs => nodeSelfAll c ++ nodeListAll cs
end

/-- Strict descendants of a node in document order: the search space of
`soup.find` / `soup.find_all` (which never match the node itself). -/
def descendants (n : Node) : List Node := nodeListAll n.children

/-- Model of `soup.find(...)` with a node predicate: first matching
descendant in document order. -/
def findFirst (p : Node → Bool) (doc : Node) : Option Node :=
  (descendants doc).find? p

/-- Model of `soup.find_all(...)` with a node predicate: all matching
descendants in document order. -/
def findAll (p : Node → Bool) (doc : Node) : List Node :=
  (descendants doc).filter p

mutual
/-- Concatenation of all strings below a node, modelling `tag.text`. -/
def Node.textContent : Node → String
  | .text s => s
  | .elem _ _ cs => textContentL cs
/-- Text of a children spine, in document order. -/
def textContentL : NodeList → String
  | .nil => ""
  | .cons c cs => c.textContent ++ textContentL cs
end

/-- Predicate for `soup.find("meta", property="og:title")`. -/
def isOgMeta (n : Node) : Bool :=
  n.tagName == "meta" && getAttr n "property" == some "og:title"

/-- Predicate for `soup.find(re.compile("^h[1-2]$"))`: tag name exactly
h1 or h2. -/
def isH12 (n : Node) : Bool :=
  n.tagName == "h1" || n.tagName == "h2"

/-- Predicate for `soup.find(t)` with a fixed tag name. -/
def tagIs (t : String) (n : Node) : Bool := n.tagName == t

/-- Python `str.strip()` modelled over characters: drop whitespace from
both ends.  (Defined over the character list so that it reduces inside
the kernel; core `String.trim` does not.) -/
def pyStrip (s : String) : String :=
  String.mk (((s.toList.dropWhile Char.isWhitespace).reverse.dropWhile
    Char.isWhitespace).reverse)

/-- Python `str.lower()`; ASCII case mapping suffices for the inputs
modelled here. -/
def pyLower (s : String) : String := String.mk (s.toList.map Char.toLower)

/-- Python `str.replace(" ", "_")`. -/
def spacesToUnderscores (s : String) : String :=
  String.mk (s.toList.map (fun c => if c = ' ' then '_' else c))

/-- Python slice `s[:-10]`: everything but the last 10 characters
(empty when the string has at most 10 characters). -/
def pyDropLast10 (s : String) : String :=
  String.mk (s.toList.take (s.toList.length - 10))

/-- Title fallback chain of `parse_post` once the og:title branch has
produced nothing: first h1/h2 with non-empty stripped text, else the
fixed default.  Note the code looks only at the FIRST h1/h2 found. -/
def fallbackTitle (doc : Node) : String :=
  match findFirst isH12 doc with
  | some h =>
    if pyStrip h.textContent ≠ "" then pyStrip h.textContent else "Untitled Post"
  | none => "Untitled Post"

/-- Model of `parse_post`: title via og:title content (last 10
characters dropped, then stripped), falling through to the first h1/h2
and then the fixed default; content container via article, then main,
then body — first match wins, possibly absent. -/
def parse_post (doc : Node) : String × Option Node :=
  let title :=
    match findFirst isOgMeta doc with
    | some m =>
      match getAttr m "content" with
      | some c =>
        if c ≠ "" then
          if pyStrip (pyDropLast10 c) ≠ "" then pyStrip (pyDropLast10 c)
          else fallbackTitle doc
        else fallbackTitle doc
      | none => fallbackTitle doc
    | none => fallbackTitle doc
  let article :=
    match findFirst (tagIs "article") doc with
    | some a => some a
    | none =>
      match findFirst (tagIs "main") doc with
      | some m => some m
      | none => findFirst (tagIs "body") doc
  (title, article)

/-- Character class `[a-z0-9_]` used by `sanitize_title_prefix`. -/
def isPrefChar (c : Char) : Bool :=
  (97 ≤ c.toNat && c.toNat ≤ 122) || c.isDigit || c == '_'

/-- Model of `sanitize_title_prefix`: strip, spaces to underscores,
lowercase, keep only `[a-z0-9_]`, cap at 10 characters, default
"image" when empty. -/
def sanitize_title_prefix (title : String) : String :=
  let s := ((pyLower (spacesToUnderscores (pyStrip title))).toList.filter
    isPrefChar).take 10
  if s = [] then "image" else String.mk s

/-- Character class `[\w-]` kept by `sanitize_post_name` (Python `\w`
over the ASCII inputs exercised here: letters, digits, underscore). -/
def isNameChar (c : Char) : Bool := c.isAlphanum || c == '_' || c == '-'

/-- Model of `sanitize_post_name`: strip, spaces to underscores, drop
every character outside `[\w-]`, cap at 15 characters, default "post"
when empty. -/
def sanitize_post_name (title : String) : String :=
  let s := ((spacesToUnderscores (pyStrip title)).toList.filter isNameChar).take 15
  if s = [] then "post" else String.mk s

/-- Decimal digit character for a value below 10. -/
def digitCharOf (d : Nat) : Char := Char.ofNat (48 + d)

/-- Fuel-driven decimal rendering, least significant digit last. -/
def natDigitsAux : Nat → Nat → List Char
  | 0, _ => []
  | fuel + 1, n =>
    if n < 10 then [digitCharOf n]
    else natDigitsAux fuel (n / 10) ++ [digitCharOf (n % 10)]

/-- Model of Python `str(index)` for a natural index: standard decimal
digits, no sign, no padding. -/
def natDigits (n : Nat) : List Char := natDigitsAux (n + 1) n

/-- Python `url.split("?")[0]`: the URL up to the first question mark. -/
def splitQuery (url : String) : List Char :=
  url.toList.takeWhile (fun c => c ≠ '?')

/-- Basename part of a path: the characters after the last slash. -/
def afterLastSlash (l : List Char) : List Char :=
  (l.reverse.takeWhile (fun c => c ≠ '/')).reverse

/-- Model of `os.path.splitext(b)[1]` on a basename: the suffix from
the last dot, unless every character before that dot is itself a dot
(leading dots never start an extension). -/
def extOfBase (b : List Char) : List Char :=
  let rb := b.reverse
  let tl := rb.takeWhile (fun c => c ≠ '.')
  if tl.length = rb.length then []
  else if (rb.drop (tl.length + 1)).all (fun c => c = '.') then []
  else '.' :: tl.reverse

/-- Extension chosen by `download_image`:
`os.path.splitext(url.split("?")[0])[1] or ".jpg"`. -/
def imageExt (url : String) : List Char :=
  let e := extOfBase (afterLastSlash (splitQuery url))
  if e = [] then ".jpg".toList else e

/-- Local filename produced by `download_image`:
`f"{prefix}_{index}{ext}"`.  The download itself (HTTP GET and file
write) is effectful; the claims concern the generated name. -/
def download_image_name (url : String) (pref : String) (index : Nat) : String :=
  pref ++ "_" ++ String.mk (natDigits index) ++ String.mk (imageExt url)

/-- The sentinel paragraph `process_images` splices in place of an
image: a new `<p>` whose string is the literal marker. -/
def placeholderNode : Node :=
  .elem "p" [] (.cons (.text "[[[ IMAGE ]]]") .nil)

/-- True for an `img` element. -/
def isImg (n : Node) : Bool := n.tagName == "img"

/-- True when a children spine is exactly one `img` element, i.e. the
Python test `parent.name == "p" and len(parent.contents) == 1` with the
single content being the image under consideration. -/
def soleImgChild : NodeList → Bool
  | .cons c .nil => isImg c
  | _ => false

mutual
/-- Replacement pass of `process_images` on one node below the
container: an `img` becomes the sentinel paragraph; a `p` whose sole
content is an `img` is replaced wholesale (avoiding an empty wrapper
paragraph); anything else keeps its shape with children processed. -/
def replaceImgNode : Node → Node
  | .text s => .text s
  | .elem t a cs =>
    if t = "img" then placeholderNode
    else
      if t = "p" ∧ soleImgChild cs then placeholderNode
      else .elem t a (replaceImgList cs)
/-- Replacement pass over a children spine. -/
def replaceImgList : NodeList → NodeList
  | .nil => .nil
  | .cons c cs => .cons (replaceImgNode c) (replaceImgList cs)
end

/-- Tree result of `process_images` on the selected container: the
container itself keeps its tag and attributes (find_all never matches
the root), its descendants have every image replaced. -/
def processImagesTree (content : Node) : Node :=
  match content with
  | .text s => .text s
  | .elem t a cs => .elem t a (replaceImgList cs)

/-- The images `process_images` iterates over: `soup.find_all("img")`
in document order. -/
def imagesOf (content : Node) : List Node := findAll isImg content

/-- The `src` the loop downloads, when present and non-empty (the
Python guard `if src:`). -/
def imgSrc (n : Node) : Option String :=
  match getAttr n "src" with
  | some s => if s ≠ "" then some s else none
  | none => none

/-- URLs for which the loop calls `download_image`, in order.  Every
image with a truthy src is attempted, regardless of earlier failures —
the except-branch only logs. -/
def downloadAttempts (content : Node) : List String :=
  (imagesOf content).filterMap imgSrc

/-- Warnings printed to stderr by the loop: one per failing download,
formatted with the offending URL and the exception text. -/
def downloadWarnings (dl : String → Except String Unit) (content : Node) : List String :=
  (imagesOf content).filterMap (fun img =>
    match imgSrc img with
    | some src =>
      match dl src with
      | .ok _ => none
      | .error e => some ("Failed to download " ++ src ++ ": " ++ e)
    | none => none)

/-- Model of `process_images`, with the download outcomes supplied as
an oracle: returns the mutated tree together with the stderr warnings.
The Python loop interleaves downloading and splicing, but the two never
interact (the replacement does not consult the download result and the
image list is computed up front), so they are modelled as separate
passes over the same list. -/
def process_images (dl : String → Except String Unit) (content : Node) :
    Node × List String :=
  (processImagesTree content, downloadWarnings dl content)

mutual
/-- Model of `strip_paragraph_classes` on a node: every `p` element
loses its `class` attribute, nothing else changes. -/
def stripNode : Node → Node
  | .text s => .text s
  | .elem t a cs =>
    .elem t (if t = "p" then a.filter (fun kv => kv.1 ≠ "class") else a) (stripList cs)
/-- Class-stripping pass over a children spine. -/
def stripList : NodeList → NodeList
  | .nil => .nil
  | .cons c cs => .cons (stripNode c) (stripList cs)
end

/-- Model of `strip_paragraph_classes` on the selected container:
`find_all("p")` also matches the container itself never — but the
container returned by `parse_post` is article/main/body, never a `p`;
the model strips every `p` in the whole subtree including the root,
which coincides on all such containers. -/
def strip_paragraph_classes (content : Node) : Node := stripNode content

/-- Entity expansion of one character, as BeautifulSoup's minimal
formatter applies it to navigable strings when serializing. -/
def escChar (c : Char) : List Char :=
  if c = '&' then "&amp;".toList
  else if c = '<' then "&lt;".toList
  else if c = '>' then "&gt;".toList
  else [c]

/-- Entity escaping of a navigable string. -/
def escapeText (s : String) : String := String.mk (s.toList.flatMap escChar)

/-- Entity expansion for attribute values: also quotes the quote. -/
def escAttrChar (c : Char) : List Char :=
  if c = '\x22' then "&quot;".toList else escChar c

/-- Attribute-value escaping. -/
def escapeAttr (v : String) : String :=
  String.mk (v.toList.flatMap escAttrChar)

/-- Serialized attribute list, in stored order, as bs4 renders it. -/
def attrsString (a : List (String × String)) : String :=
  String.join (a.map (fun kv => " " ++ kv.1 ++ "=\x22" ++ escapeAttr kv.2 ++ "\x22"))

/-- HTML void elements, which html.parser keeps childless and bs4
serializes self-closing. -/
def voidTags : List String :=
  ["area", "base", "br", "col", "embed", "hr", "img", "input", "link",
   "meta", "param", "source", "track", "wbr"]

mutual
/-- Model of `str(element)`: tags rendered with their attributes and
children (void elements self-closing), strings entity-escaped. -/
def serializeNode : Node → String
  | .text s => escapeText s
  | .elem t a cs =>
    if voidTags.contains t then "<" ++ t ++ attrsString a ++ "/>"
    else "<" ++ t ++ attrsString a ++ ">" ++ serializeList cs ++ "</" ++ t ++ ">"
/-- Serialization of a children spine, concatenated in order. -/
def serializeList : NodeList → String
  | .nil => ""
  | .cons c cs => serializeNode c ++ serializeList cs
end

/-- The allow-list `build_html` passes to `find_all`: the base tags
plus heading levels 2..6 (`h1` deliberately excluded). -/
def allowedTags : List String :=
  ["p", "ul", "ol", "pre", "blockquote", "h2", "h3", "h4", "h5", "h6"]

/-- True for elements whose tag is in the renderer's allow-list. -/
def isAllowedTag (n : Node) : Bool := allowedTags.contains n.tagName

/-- Model of `build_html`: the synthesized h1 line, then the
serialization of every allow-listed descendant in document order, then
the optional gallery trailer, all newline-joined. -/
def build_html (title : String) (content : Node) (gd : Option String) : String :=
  let parts := ("<h1>" ++ title ++ "</h1>") ::
    (findAll isAllowedTag content).map serializeNode
  let parts2 :=
    match gd with
    | some d =>
      if d ≠ "" then parts ++ ["<hr>", "<h2>Gallery</h2>", "<p>" ++ d ++ "</p>"]
      else parts
    | none => parts
  String.intercalate "\n" parts2

/-- Occurrence check of a pattern inside a character list (Python
`pat in s`). -/
def occursIn (pat : List Char) : List Char → Bool
  | [] => pat.isEmpty
  | c :: rest => pat.isPrefixOf (c :: rest) || occursIn pat rest

/-- Number of positions at which the pattern occurs in the list;
overlapping occurrences all count. -/
def countOcc (pat : List Char) : List Char → Nat
  | [] => if pat.isEmpty then 1 else 0
  | c :: rest =>
    (if pat.isPrefixOf (c :: rest) then 1 else 0) + countOcc pat rest

/-- Model of `urllib.parse.urljoin` for the cases this tool exercises:
an absolute href (with a scheme) is returned unchanged; every concrete
input below uses absolute hrefs, so relative resolution is not
modelled further than base-prefixing. -/
def urljoinModel (base href : String) : String :=
  if occursIn "://".toList href.toList then href else base ++ href

/-- Model of `find_gallery_link`: the first anchor whose href is
truthy and contains the `/gallery#/` fragment convention, resolved
against the base URL. -/
def find_gallery_link (doc : Node) (base_url : String) : Option String :=
  match findFirst (fun n =>
      n.tagName == "a" &&
      (match getAttr n "href" with
       | some h => h ≠ "" && occursIn "/gallery#/".toList h.toList
       | none => false)) doc with
  | some a =>
    match getAttr a "href" with
    | some h => if h ≠ "" then some (urljoinModel base_url h) else none
    | none => none
  | none => none

/-- Fragment component of a URL (`urlparse(url).fragment`): the text
after the first hash mark, empty when there is none. -/
def fragmentOf (url : String) : String :=
  match url.toList.dropWhile (fun c => c ≠ '#') with
  | [] => ""
  | _ :: rest => String.mk rest

/-- Python `s.lstrip("/").rstrip("/")`. -/
def stripSlashes (s : String) : String :=
  String.mk (((s.toList.dropWhile (fun c => c = '/')).reverse.dropWhile
    (fun c => c = '/')).reverse)

/-- Attribute lookup with a default, modelling `tag.get(key, "")`. -/
def getAttrD (n : Node) (key dflt : String) : String :=
  match getAttr n key with
  | some v => v
  | none => dflt

/-- Space-splitting of an attribute value (kernel-reducible stand-in
for `String.splitOn " "`). -/
def splitSpacesAux : List Char → List Char → List String
  | [], acc => [String.mk acc.reverse]
  | c :: r, acc =>
    if c = ' ' then String.mk acc.reverse :: splitSpacesAux r []
    else splitSpacesAux r (c :: acc)

/-- Whitespace-separated tokens of a class attribute. -/
def classTokens (n : Node) : List String :=
  (splitSpacesAux (getAttrD n "class" "").toList []).filter (fun t => t ≠ "")

/-- Model of a bs4 single-word `class_` filter: the word is one of the
element's class tokens. -/
def classHasToken (w : String) (n : Node) : Bool := (classTokens n).contains w

/-- Model of a bs4 multi-word `class_` string filter: the whole class
attribute matches the string exactly. -/
def classIsExactly (w : String) (n : Node) : Bool := getAttr n "class" == some w

/-- All navigable strings at or below a node, document order. -/
def stringsOf (n : Node) : List String :=
  (nodeSelfAll n).filterMap (fun m =>
    match m with
    | .text s => some s
    | .elem _ _ _ => none)

/-- Model of `get_text(strip=True)`: stripped strings, empties
dropped, concatenated. -/
def getTextStripped (n : Node) : String :=
  String.join (((stringsOf n).map pyStrip).filter (fun s => s ≠ ""))

/-- Model of `get_text(" ", strip=True)`: stripped strings, empties
dropped, joined with single spaces. -/
def getTextSpaceStripped (n : Node) : String :=
  String.intercalate " " (((stringsOf n).map pyStrip).filter (fun s => s ≠ ""))

/-- Case-insensitive test for the call-to-action text: the regex
`read\s*more(?:\.{3}|…)?$` anchored at the start (re.match) and end. -/
def readMoreText (s : String) : Bool :=
  let l := s.toList.map Char.toLower
  match l.take 4 with
  | ['r', 'e', 'a', 'd'] =>
    let l1 := (l.drop 4).dropWhile Char.isWhitespace
    match l1.take 4 with
    | ['m', 'o', 'r', 'e'] =>
      let l2 := l1.drop 4
      l2 = [] || l2 = ['.', '.', '.'] || l2 = ['…']
    | _ => false
  | _ => false

mutual
/-- Removal (`decompose`) of every descendant anchor whose stripped
text matches the read-more pattern. -/
def rmReadMoreNode : Node → Node
  | .text s => .text s
  | .elem t a cs => .elem t a (rmReadMoreList cs)
/-- Read-more anchor removal over a children spine. -/
def rmReadMoreList : NodeList → NodeList
  | .nil => .nil
  | .cons c cs =>
    if c.tagName == "a" && readMoreText (getTextStripped c) then rmReadMoreList cs
    else .cons (rmReadMoreNode c) (rmReadMoreList cs)
end

/-- Whole-list match of the trailing pattern
`\s*read\s*more(?:\.{3}|…)?\s*$`, case-insensitively. -/
def readMoreTailMatch (l : List Char) : Bool :=
  let l0 := (l.map Char.toLower).dropWhile Char.isWhitespace
  match l0.take 4 with
  | ['r', 'e', 'a', 'd'] =>
    let l1 := (l0.drop 4).dropWhile Char.isWhitespace
    match l1.take 4 with
    | ['m', 'o', 'r', 'e'] =>
      let l2 := l1.drop 4
      let l3 :=
        if ['.', '.', '.'].isPrefixOf l2 then l2.drop 3
        else if ['…'].isPrefixOf l2 then l2.drop 1
        else l2
      l3.dropWhile Char.isWhitespace = []
    | _ => false
  | _ => false

/-- Leftmost-match removal of the trailing read-more pattern from the
description (`re.sub(..., "", description)` with an end-anchored
pattern): cut at the first suffix position that matches. -/
def rmReadMoreTail : List Char → List Char
  | [] => []
  | c :: r => if readMoreTailMatch (c :: r) then [] else c :: rmReadMoreTail r

/-- Model of `extract_gallery_images`: locate the gallery project
container by data-url suffix match against the URL fragment (falling
back to the active project), then collect its image URLs (absolutized,
query-stripped) and its description with read-more anchors and any
trailing read-more text removed. -/
def extract_gallery_images (gdoc : Node) (gallery_url : String) :
    List String × String :=
  let target := stripSlashes (fragmentOf gallery_url)
  let projectByData :=
    if target ≠ "" then
      (findAll (fun n => n.tagName == "div" &&
          classIsExactly "project gallery-project" n) gdoc).find? (fun c =>
        target.toList.isSuffixOf (stripSlashes (getAttrD c "data-url" "")).toList)
    else none
  let project :=
    match projectByData with
    | some p => some p
    | none =>
      findFirst (fun n => n.tagName == "div" &&
        classIsExactly "project gallery-project active-project" n) gdoc
  match project with
  | none => ([], "")
  | some proj =>
    match findFirst (fun n => n.tagName == "div" && classHasToken "image-list" n) proj with
    | none => ([], "")
    | some image_list =>
      let description :=
        match findFirst (fun n => n.tagName == "div" &&
            classHasToken "project-description" n) proj with
        | none => ""
        | some d =>
          String.mk (rmReadMoreTail
            (getTextSpaceStripped (rmReadMoreNode d)).toList)
      let images := (findAll isImg image_list).filterMap (fun img =>
        match imgSrc img with
        | some src => some (String.mk (splitQuery (urljoinModel gallery_url src)))
        | none => none)
      (images, description)

/-- Character list of the literal placeholder paragraph the final
`re.sub` looks for. -/
def sentinelCore : List Char := "<p>[[[ IMAGE ]]]</p>".toList

/-- Consume one optional leading newline (the trailing greedy `\n?` of
the pattern). -/
def dropOneNl : List Char → List Char
  | '\n' :: r => r
  | r => r

/-- Model of
`re.sub(r"\n?<p>\[\[\[ IMAGE \]\]\]</p>\n?", "", html, count=1)`:
remove the leftmost occurrence of the placeholder paragraph together
with an optional newline on each side.  At a given position the match
consumes a leading newline exactly when the literal follows it (the
literal starts with a bracket, never a newline, so no further
backtracking arises). -/
def removeFirstSentinelL : List Char → List Char
  | [] => []
  | c :: r =>
    if c == '\n' && sentinelCore.isPrefixOf r then
      dropOneNl (r.drop sentinelCore.length)
    else if sentinelCore.isPrefixOf (c :: r) then
      dropOneNl ((c :: r).drop sentinelCore.length)
    else c :: removeFirstSentinelL r

/-- String version of the first-placeholder removal. -/
def removeFirstSentinel (s : String) : String :=
  String.mk (removeFirstSentinelL s.toList)

/-- Observable outcome of one successful run of `main`: what was
printed to stderr and stdout, which file was written with which
contents, and which image downloads were attempted (post-body pass and
gallery pass separately), in order. -/
structure RunOutcome where
  stderrLog : List String
  stdoutLog : List String
  written : List (String × String)
  imgAttempts : List String
  galleryAttempts : List String
  exitCode : Nat
deriving DecidableEq

/-- Decidable equality for run results wrapped in `Except`, so that
concrete pipeline runs can be checked by `decide`. -/
instance {α β : Type} [DecidableEq α] [DecidableEq β] : DecidableEq (Except α β) := fun a b =>
  match a, b with
  | .ok x, .ok y =>
    if h : x = y then .isTrue (by rw [h]) else .isFalse (fun hc => h (Except.ok.inj hc))
  | .error x, .error y =>
    if h : x = y then .isTrue (by rw [h]) else .isFalse (fun hc => h (Except.error.inj hc))
  | .ok _, .error _ => .isFalse (fun hc => Except.noConfusion hc)
  | .error _, .ok _ => .isFalse (fun hc => Except.noConfusion hc)

/-- Model of `main`: the fetch of a URL yields a parsed document (or a
transport error) through the `pages` oracle, and each image download
yields success or an error text through the `dl` oracle.  A top-level
`.error` models an uncaught exception aborting the run: a failing
primary fetch, or the crash on a document with no article/main/body
container (`process_images` is then called on `None`).  A failing
gallery fetch is caught: it only logs and leaves the gallery result
empty. -/
def mainModel (pages : String → Except String Node)
    (dl : String → Except String Unit) (url : String) :
    Except String RunOutcome :=
  match pages url with
  | .error e => .error e
  | .ok doc =>
    let title := (parse_post doc).1
    let content? := (parse_post doc).2
    let glink := find_gallery_link doc url
    let gres :=
      match glink with
      | none => ([], "", ([] : List String))
      | some l =>
        match pages l with
        | .ok gdoc =>
          let r := extract_gallery_images gdoc l
          (r.1, r.2, ([] : List String))
        | .error e => ([], "", ["Failed to retrieve gallery page: " ++ e])
    let gallery_images := gres.1
    let gallery_description := gres.2.1
    let gwarn := gres.2.2
    match content? with
    | none => .error "AttributeError: NoneType object has no attribute find_all"
    | some content =>
      let post_name := sanitize_post_name title
      let content1 := (process_images dl content).1
      let imgWarns := (process_images dl content).2
      let content2 := strip_paragraph_classes content1
      let output0 := build_html title content2
        (if gallery_description ≠ "" then some gallery_description else none)
      let output := removeFirstSentinel output0
      let outPath := post_name ++ "/" ++ post_name ++ ".html"
      let gWarns := gallery_images.filterMap (fun u =>
        match dl u with
        | .ok _ => none
        | .error e => some ("Failed to download gallery image " ++ u ++ ": " ++ e))
      .ok {
        stderrLog := gwarn ++ imgWarns ++ gWarns
        stdoutLog := ["Wrote " ++ outPath]
        written := [(outPath, output)]
        imgAttempts := downloadAttempts content
        galleryAttempts := gallery_images
        exitCode := 0 }

/-- Plain list of the top-level children in a spine. -/
def NodeList.toList : NodeList → List Node
  | .nil => []
  | .cons c cs => c :: toList cs

mutual
/-- Number of `img` elements at or below a node. -/
def countImgN : Node → Nat
  | .text _ => 0
  | .elem t _ cs => (if t = "img" then 1 else 0) + countImgL cs
/-- Number of `img` elements in a children spine. -/
def countImgL : NodeList → Nat
  | .nil => 0
  | .cons c cs => countImgN c + countImgL cs
end

mutual
/-- Number of sentinel placeholder paragraphs at or below a node. -/
def countSentinelN : Node → Nat
  | .text _ => 0
  | .elem t a cs =>
    (if Node.elem t a cs = placeholderNode then 1 else 0) + countSentinelL cs
/-- Number of sentinel placeholder paragraphs in a children spine. -/
def countSentinelL : NodeList → Nat
  | .nil => 0
  | .cons c cs => countSentinelN c + countSentinelL cs
end

mutual
/-- Well-formedness of html.parser output: `img` is a void element, so
every `img` node is childless (in particular no image nests inside
another image). -/
def imgsChildlessN : Node → Bool
  | .text _ => true
  | .elem t _ cs => (!(t == "img") || cs == NodeList.nil) && imgsChildlessL cs
/-- Void-image well-formedness over a children spine. -/
def imgsChildlessL : NodeList → Bool
  | .nil => true
  | .cons c cs => imgsChildlessN c && imgsChildlessL cs
end

mutual
/-- True when no allow-listed element occurs strictly below the node. -/
def noAllowedBelowN : Node → Bool
  | .text _ => true
  | .elem _ _ cs => noAllowedInL cs
/-- True when a spine contains no allow-listed element at any depth. -/
def noAllowedInL : NodeList → Bool
  | .nil => true
  | .cons c cs => !(isAllowedTag c) && noAllowedBelowN c && noAllowedInL cs
end

/-- Flatness of a content spine for the renderer: the top-level
children may themselves be allow-listed, but nothing below them is —
no allow-listed element is nested inside another. -/
def flatSpine : NodeList → Bool
  | .nil => true
  | .cons c cs => noAllowedBelowN c && flatSpine cs

/-- Truthy og:title meta presence (`soup.find` would succeed). -/
def hasOgMeta (doc : Node) : Bool := (findFirst isOgMeta doc).isSome

/-- True when every h1/h2 in the document has empty stripped text. -/
def headingsAllEmpty (doc : Node) : Bool :=
  (findAll isH12 doc).all (fun h => pyStrip h.textContent == "")

/-- Fixture for the spec scenario: a page whose og:title content is
"My Trip" and whose article holds one paragraph and one image. -/
def scenarioDoc : Node :=
  .elem "[document]" []
    (.cons (.elem "html" []
      (.cons (.elem "head" []
        (.cons (.elem "meta"
          [("property", "og:title"), ("content", "My Trip")] .nil) .nil))
      (.cons (.elem "body" []
        (.cons (.elem "article" []
          (.cons (.elem "p" [] (.cons (.text "Hello") .nil))
          (.cons (.elem "img" [("src", "https://x/a.jpg")] .nil) .nil))) .nil))
      .nil)))
    .nil)

/-- Page oracle serving the scenario document at its post URL. -/
def scenarioPages : String → Except String Node := fun u =>
  if u = "https://site/post" then .ok scenarioDoc else .error "404"

/-- Fixture content for the image-failure claims: an article whose only
child is one image. -/
def imgFailContent : Node :=
  .elem "article" [] (.cons (.elem "img" [("src", "http://x/a.jpg")] .nil) .nil)

/-- Fixture content for the nesting counterexample: an article holding
a blockquote that holds a paragraph. -/
def nestedContent : Node :=
  .elem "article" []
    (.cons (.elem "blockquote" []
      (.cons (.elem "p" [] (.cons (.text "x") .nil)) .nil)) .nil)

/-- Flat fixture spine for the renderer: a paragraph, a list (whose
items are not allow-listed), and a string. -/
def flatSpineFix : NodeList :=
  .cons (.elem "p" [] (.cons (.text "Hello") .nil))
  (.cons (.elem "ul" [] (.cons (.elem "li" [] (.cons (.text "x") .nil)) .nil))
  (.cons (.text "t") .nil))

/-- Fixture content for the placeholder-invariant claim: one paragraph
wholly occupied by an image, and one paragraph holding text plus an
image (the second image even lacks a src). -/
def mixedImgContent : Node :=
  .elem "article" []
    (.cons (.elem "p" [] (.cons (.elem "img" [("src", "u")] .nil) .nil))
    (.cons (.elem "p" [] (.cons (.text "t") (.cons (.elem "img" [] .nil) .nil)))
    .nil))

/-- Fixture for the default-title claim and its scenario: a main
container with two paragraphs, no metadata title, no headings. -/
def twoParaDoc : Node :=
  .elem "[document]" []
    (.cons (.elem "body" []
      (.cons (.elem "main" []
        (.cons (.elem "p" [] (.cons (.text "A") .nil))
        (.cons (.elem "p" [] (.cons (.text "B") .nil)) .nil))) .nil))
    .nil)

/-- Fixture for the suffix-chopping claim: a short og:title alongside a
non-empty first heading. -/
def shortOgDoc : Node :=
  .elem "[document]" []
    (.cons (.elem "head" []
      (.cons (.elem "meta"
        [("property", "og:title"), ("content", "My Trip")] .nil) .nil))
    (.cons (.elem "body" []
      (.cons (.elem "h1" [] (.cons (.text "Real Title") .nil))
      (.cons (.elem "article" []
        (.cons (.elem "p" [] (.cons (.text "Hello") .nil)) .nil)) .nil)))
    .nil))

/-- The og:title meta element of `shortOgDoc`. -/
def shortOgMeta : Node :=
  .elem "meta" [("property", "og:title"), ("content", "My Trip")] .nil

/-- Fixture for the missing-container claim: a document with no
article, no main, no body. -/
def bareDoc : Node := .elem "[document]" [] (.cons (.text "just text") .nil)

/-- Article fixture for the gallery-failure claim: a paragraph and a
gallery link. -/
def galleryArticle : Node :=
  .elem "article" []
    (.cons (.elem "p" [] (.cons (.text "Hello") .nil))
    (.cons (.elem "a" [("href", "https://site/gallery#/g1")]
      (.cons (.text "g") .nil)) .nil))

/-- Fixture document for the gallery-failure claim: the article above
inside a body. -/
def galleryDoc : Node :=
  .elem "[document]" []
    (.cons (.elem "body" [] (.cons galleryArticle .nil)) .nil)

/-- Page oracle for the gallery-failure claim: the post page resolves,
the gallery page (and anything else) fails with a transport error. -/
def galleryPages : String → Except String Node := fun u =>
  if u = "https://site/post" then .ok galleryDoc else .error "timeout"

/-- Decimal value of a digit string (decoder used to prove that the
index rendering is injective). -/
def digitsVal (l : List Char) : Nat :=
  l.foldl (fun a c => 10 * a + (c.toNat - 48)) 0

mutual
/-- Class stripping twice equals once, node level. -/
theorem stripNode_idem : ∀ n, stripNode (stripNode n) = stripNode n
  | .text _ => rfl
  | .elem t a cs => by
    simp only [stripNode, stripList_idem cs]
    split
    · simp [List.filter_filter]
    · rfl
/-- Class stripping twice equals once, spine level. -/
theorem stripList_idem : ∀ cs, stripList (stripList cs) = stripList cs
  | .nil => rfl
  | .cons c cs => by simp only [stripList, stripNode_idem c, stripList_idem cs]
end

/-- C8: the paragraph class-stripping sanitization pass is idempotent —
for every content tree, applying `strip_paragraph_classes` twice yields
exactly the tree obtained by applying it once. -/
theorem C8_strip_idempotent (content : Node) :
    strip_paragraph_classes (strip_paragraph_classes content) =
      strip_paragraph_classes content :=
  stripNode_idem content

/-- C1: contrary to the claim, an og:title content of "My Trip" does
not survive into the title: the code removes the last 10 characters
unconditionally, the remainder is empty, and the title falls back to
the default, so the post name and the leading h1 are "Untitled Post"
rather than "My Trip".  This evaluates the code at the spec's own
scenario input. -/
theorem C1_title_not_preserved :
    (parse_post scenarioDoc).1 = "Untitled Post" ∧
    (parse_post scenarioDoc).1 ≠ "My Trip" ∧
    mainModel scenarioPages (fun _ => .ok ()) "https://site/post" =
      .ok { stderrLog := [],
            stdoutLog := ["Wrote Untitled_Post/Untitled_Post.html"],
            written := [("Untitled_Post/Untitled_Post.html",
              "<h1>Untitled Post</h1>\n<p>Hello</p>")],
            imgAttempts := ["https://x/a.jpg"],
            galleryAttempts := [],
            exitCode := 0 } :=
  ⟨by decide, by decide, by decide⟩

/-- C10: a document with no article, no main and no body yields no
content container from `parse_post`, and the pipeline (which
unconditionally calls `find_all` on that container) cannot proceed: the
run aborts with the modelled attribute error. -/
theorem C10_missing_container_aborts :
    (parse_post bareDoc).2 = none ∧
    mainModel (fun _ => .ok bareDoc) (fun _ => .ok ()) "u" =
      .error "AttributeError: NoneType object has no attribute find_all" :=
  ⟨by decide, by decide⟩

/-- The fallback title is never the empty string. -/
theorem fallbackTitle_ne_empty (doc : Node) : fallbackTitle doc ≠ "" := by
  unfold fallbackTitle
  cases hh : findFirst isH12 doc with
  | none => decide
  | some h =>
    by_cases ht : pyStrip h.textContent ≠ ""
    · simp [ht]
    · simp [ht]

/-- C9: `parse_post` removes the last 10 characters of the og:title
content before trimming, no matter what they are; when the content has
at most 10 characters the metadata-derived title becomes empty and is
discarded, and title resolution falls through to the heading/default
chain. -/
theorem C9_unconditional_chop (doc m : Node) (c : String)
    (hm : findFirst isOgMeta doc = some m)
    (hc : getAttr m "content" = some c)
    (hlen : c.length ≤ 10) :
    (parse_post doc).1 = fallbackTitle doc := by
  have h0 : pyDropLast10 c = "" := by
    unfold pyDropLast10
    have hz : c.toList.length - 10 = 0 := by
      have hl : c.toList.length = c.length := rfl
      omega
    rw [hz]
    rfl
  have hstrip : pyStrip "" = "" := rfl
  by_cases hce : c = ""
  · simp [parse_post, hm, hc, hce]
  · simp [parse_post, hm, hc, hce, h0, hstrip]

/-- C9 witness: on a concrete document whose og:title content is
"My Trip" (7 characters) and whose first heading reads "Real Title",
the emitted title is the heading fallback, not anything derived from
the metadata. -/
theorem C9_witness :
    (parse_post shortOgDoc).1 = fallbackTitle shortOgDoc ∧
    fallbackTitle shortOgDoc = "Real Title" :=
  ⟨C9_unconditional_chop shortOgDoc shortOgMeta "My Trip"
    (by decide) (by decide) (by decide), by decide⟩

/-- C4: a document with no og:title metadata and no h1/h2 with
non-empty text is titled exactly "Untitled Post", and the title
produced by `parse_post` is non-empty on every input. -/
theorem C4_default_title :
    (∀ doc : Node, hasOgMeta doc = false → headingsAllEmpty doc = true →
      (parse_post doc).1 = "Untitled Post") ∧
    (∀ doc : Node, (parse_post doc).1 ≠ "") := by
  constructor
  · intro doc h1 h2
    have hog : findFirst isOgMeta doc = none := by
      cases hfind : findFirst isOgMeta doc with
      | none => rfl
      | some m => simp [hasOgMeta, hfind] at h1
    have hfb : fallbackTitle doc = "Untitled Post" := by
      unfold fallbackTitle
      cases hh : findFirst isH12 doc with
      | none => rfl
      | some h =>
        have hmem : h ∈ descendants doc := List.mem_of_find?_eq_some hh
        have hp : isH12 h = true := List.find?_some hh
        have hin : h ∈ findAll isH12 doc := by
          unfold findAll
          exact List.mem_filter.mpr ⟨hmem, hp⟩
        have hall := List.all_eq_true.mp h2 h hin
        have hts : pyStrip h.textContent = "" := by simp at hall; exact hall
        simp [hts]
    simp [parse_post, hog, hfb]
  · intro doc
    simp only [parse_post]
    cases hog : findFirst isOgMeta doc with
    | none => exact fallbackTitle_ne_empty doc
    | some m =>
      cases hc : getAttr m "content" with
      | none =>
        simp only [hc]
        exact fallbackTitle_ne_empty doc
      | some c =>
        simp only [hc]
        by_cases hce : c = ""
        · simp [hce, fallbackTitle_ne_empty doc]
        · by_cases hds : pyStrip (pyDropLast10 c) = ""
          · simp [hce, hds, fallbackTitle_ne_empty doc]
          · simp [hce, hds]

/-- C4 witness: the spec's own scenario — no metadata title, no
heading, a main with two paragraphs — is titled "Untitled Post". -/
theorem C4_witness :
    hasOgMeta twoParaDoc = false ∧ headingsAllEmpty twoParaDoc = true ∧
    (parse_post twoParaDoc).1 = "Untitled Post" :=
  ⟨by decide, by decide, C4_default_title.1 twoParaDoc (by decide) (by decide)⟩

mutual
/-- The image-replacement pass leaves no image anywhere below a node. -/
theorem countImg_replaceNode : ∀ n, countImgN (replaceImgNode n) = 0
  | .text _ => rfl
  | .elem t a cs => by
    by_cases h1 : t = "img"
    · simp only [replaceImgNode, if_pos h1]
      decide
    · by_cases h2 : t = "p" ∧ soleImgChild cs
      · simp only [replaceImgNode, if_neg h1, if_pos h2]
        decide
      · simp only [replaceImgNode, if_neg h1, if_neg h2, countImgN,
          countImg_replaceList cs]
/-- The image-replacement pass leaves no image in a spine. -/
theorem countImg_replaceList : ∀ cs, countImgL (replaceImgList cs) = 0
  | .nil => rfl
  | .cons c cs => by
    simp only [replaceImgList, countImgL, countImg_replaceNode c,
      countImg_replaceList cs]
end

/-- Inversion for the sole-image test. -/
theorem soleImgChild_eq_true_iff (cs : NodeList) :
    soleImgChild cs = true ↔ ∃ ia ics, cs = .cons (.elem "img" ia ics) .nil := by
  cases cs with
  | nil => simp [soleImgChild]
  | cons c tl =>
    cases tl with
    | nil =>
      cases c with
      | text s => simp [soleImgChild, isImg, Node.tagName]
      | elem t a k =>
        constructor
        · intro h
          have ht : t = "img" := by
            simpa [soleImgChild, isImg, Node.tagName] using h
          exact ⟨a, k, by rw [ht]⟩
        · rintro ⟨ia, ics, h⟩
          injection h with h1 h2
          injection h1 with ht ha hk
          simp [soleImgChild, isImg, Node.tagName, ht]
    | cons d tl2 => simp [soleImgChild]

/-- The replacement pass maps a node to a navigable string only when it
was that very string. -/
theorem replaceImgNode_eq_text_iff (c : Node) (m : String) :
    replaceImgNode c = .text m ↔ c = .text m := by
  cases c with
  | text s => simp [replaceImgNode]
  | elem t a cs =>
    constructor
    · intro h
      by_cases h1 : t = "img"
      · simp only [replaceImgNode, if_pos h1] at h
        simp [placeholderNode] at h
      · by_cases h2 : t = "p" ∧ soleImgChild cs
        · simp only [replaceImgNode, if_neg h1, if_pos h2] at h
          simp [placeholderNode] at h
        · simp only [replaceImgNode, if_neg h1, if_neg h2] at h
          exact absurd h (by simp)
    · intro h
      simp at h

/-- The replacement pass maps a spine to the empty spine only from the
empty spine. -/
theorem replaceImgList_eq_nil_iff (cs : NodeList) :
    replaceImgList cs = .nil ↔ cs = .nil := by
  cases cs <;> simp [replaceImgList]

/-- The replacement pass produces a one-string spine only from that
very spine. -/
theorem replaceImgList_single_text_iff (cs : NodeList) (m : String) :
    replaceImgList cs = .cons (.text m) .nil ↔ cs = .cons (.text m) .nil := by
  cases cs with
  | nil => simp [replaceImgList]
  | cons c tl =>
    simp [replaceImgList, NodeList.cons.injEq, replaceImgNode_eq_text_iff,
      replaceImgList_eq_nil_iff]

/-- Processing the children preserves whether an element is the
sentinel paragraph. -/
theorem elem_replace_eq_placeholder_iff (t : String)
    (a : List (String × String)) (cs : NodeList) :
    Node.elem t a (replaceImgList cs) = placeholderNode ↔
      Node.elem t a cs = placeholderNode := by
  simp [placeholderNode, Node.elem.injEq, replaceImgList_single_text_iff]

mutual
/-- Sentinel bookkeeping of the replacement pass at a node: each image
below (all childless) turns into exactly one new sentinel paragraph. -/
theorem countSentinel_replaceNode : ∀ n, imgsChildlessN n = true →
    countSentinelN (replaceImgNode n) = countSentinelN n + countImgN n
  | .text _, _ => rfl
  | .elem t a cs, h => by
    have h' := h
    simp only [imgsChildlessN, Bool.and_eq_true] at h'
    obtain ⟨hv, hcs⟩ := h'
    by_cases h1 : t = "img"
    · subst h1
      have hnil : cs = NodeList.nil := by
        simpa using hv
      subst hnil
      have e1 : replaceImgNode (Node.elem "img" a NodeList.nil) =
          placeholderNode := rfl
      have e2 : Node.elem "img" a .nil ≠ placeholderNode := by
        simp [placeholderNode]
      have e3 : countSentinelN placeholderNode = 1 := rfl
      rw [e1, e3]
      simp [countSentinelN, countSentinelL, countImgN, countImgL, e2]
    · by_cases h2 : t = "p" ∧ soleImgChild cs
      · obtain ⟨ht, hsole⟩ := h2
        obtain ⟨ia, ics, hcs_eq⟩ := (soleImgChild_eq_true_iff cs).mp hsole
        subst hcs_eq
        subst ht
        have hics : ics = NodeList.nil := by
          simp only [imgsChildlessL, imgsChildlessN, Bool.and_eq_true] at hcs
          simpa using hcs.1.1
        subst hics
        have e1 : replaceImgNode (.elem "p" a
            (.cons (.elem "img" ia .nil) .nil)) = placeholderNode := rfl
        rw [e1]
        have e2 : Node.elem "p" a (.cons (.elem "img" ia .nil) .nil) ≠
            placeholderNode := by
          simp [placeholderNode]
        have e3 : countSentinelN placeholderNode = 1 := rfl
        have e4 : Node.elem "img" ia .nil ≠ placeholderNode := by
          simp [placeholderNode]
        rw [e3]
        simp [countSentinelN, countSentinelL, countImgN, countImgL, e2, e4]
      · simp only [replaceImgNode, if_neg h1, if_neg h2, countSentinelN,
          countSentinel_replaceList cs hcs, countImgN]
        by_cases hpl : Node.elem t a cs = placeholderNode
        · rw [if_pos ((elem_replace_eq_placeholder_iff t a cs).mpr hpl),
            if_pos hpl]
          omega
        · rw [if_neg (fun hh => hpl ((elem_replace_eq_placeholder_iff t a cs).mp hh)),
            if_neg hpl]
          omega
/-- Sentinel bookkeeping of the replacement pass over a spine. -/
theorem countSentinel_replaceList : ∀ cs, imgsChildlessL cs = true →
    countSentinelL (replaceImgList cs) = countSentinelL cs + countImgL cs
  | .nil, _ => rfl
  | .cons c cs, h => by
    simp only [imgsChildlessL, Bool.and_eq_true] at h
    obtain ⟨hc, hcs⟩ := h
    simp only [replaceImgList, countSentinelL, countImgL,
      countSentinel_replaceNode c hc, countSentinel_replaceList cs hcs]
    omega
end

/-- C6: after `process_images` the selected container (itself not an
image; images childless, as html.parser guarantees for the void `img`)
contains no image elements; every image — with or without a src,
downloadable or not — accounts for exactly one new sentinel paragraph;
and a paragraph wholly occupied by one image is replaced as a whole, so
no empty wrapper paragraph remains around that sentinel. -/
theorem C6_images_all_replaced (content : Node)
    (h1 : isImg content = false) (h2 : imgsChildlessN content = true) :
    countImgN (processImagesTree content) = 0 ∧
    countSentinelN (processImagesTree content) =
      countSentinelN content + countImgN content ∧
    ∀ a ia rest, replaceImgList (.cons (.elem "p" a
        (.cons (.elem "img" ia .nil) .nil)) rest) =
      .cons placeholderNode (replaceImgList rest) := by
  refine ⟨?_, ?_, ?_⟩
  · cases content with
    | text s => rfl
    | elem t a cs =>
      have ht : ¬(t = "img") := by
        simpa [isImg, Node.tagName] using h1
      simp [processImagesTree, countImgN, countImg_replaceList cs, ht]
  · cases content with
    | text s => rfl
    | elem t a cs =>
      have hcs : imgsChildlessL cs = true := by
        simp only [imgsChildlessN, Bool.and_eq_true] at h2
        exact h2.2
      have ht : ¬(t = "img") := by
        simpa [isImg, Node.tagName] using h1
      simp only [processImagesTree, countSentinelN, countImgN,
        countSentinel_replaceList cs hcs]
      by_cases hpl : Node.elem t a cs = placeholderNode
      · rw [if_pos ((elem_replace_eq_placeholder_iff t a cs).mpr hpl),
          if_pos hpl]
        simp [ht, Nat.add_assoc]
      · rw [if_neg (fun hh => hpl ((elem_replace_eq_placeholder_iff t a cs).mp hh)),
          if_neg hpl]
        simp [ht, Nat.add_assoc]
  · intro a ia rest
    rfl

/-- C6 witness: on a container holding a sole-image paragraph and a
mixed paragraph whose image even lacks a src, processing leaves no
image elements. -/
theorem C6_witness :
    isImg mixedImgContent = false ∧ imgsChildlessN mixedImgContent = true ∧
    countImgN (processImagesTree mixedImgContent) = 0 ∧
    processImagesTree mixedImgContent =
      .elem "article" []
        (.cons placeholderNode
        (.cons (.elem "p" [] (.cons (.text "t") (.cons placeholderNode .nil)))
        .nil)) :=
  ⟨by decide, by decide,
    (C6_images_all_replaced mixedImgContent (by decide) (by decide)).1,
    by decide⟩

/-- C2 (amended): a failing download is logged to stderr with the
offending URL and the cause; the loop still attempts every image with a
truthy src, whatever the outcomes of other downloads (the attempt list
does not depend on the oracle at all); and — contrary to the original
claim — the failed image is not left in the tree: the placeholder
replacement runs regardless of the download outcome, so no image
survives. -/
theorem C2_failure_logged_not_skipped (dl : String → Except String Unit)
    (content : Node) :
    (∀ n s e, n ∈ imagesOf content → imgSrc n = some s → dl s = .error e →
      ("Failed to download " ++ s ++ ": " ++ e) ∈ (process_images dl content).2) ∧
    (∀ n s, n ∈ imagesOf content → imgSrc n = some s →
      s ∈ downloadAttempts content) ∧
    (isImg content = false → countImgN ((process_images dl content).1) = 0) := by
  refine ⟨?_, ?_, ?_⟩
  · intro n s e hmem hsrc hdl
    simp only [process_images, downloadWarnings]
    exact List.mem_filterMap.mpr ⟨n, hmem, by simp [hsrc, hdl]⟩
  · intro n s hmem hsrc
    exact List.mem_filterMap.mpr ⟨n, hmem, hsrc⟩
  · intro h1
    cases content with
    | text s => rfl
    | elem t a cs =>
      have ht : ¬(t = "img") := by
        simpa [isImg, Node.tagName] using h1
      simp [process_images, processImagesTree, countImgN,
        countImg_replaceList cs, ht]

/-- C2 counterexample: with a download oracle that always fails, the
single image of the container is nevertheless replaced by the sentinel
paragraph — the tree changes and no image remains — refuting "the
placeholder replacement is not applied to an image whose download
failed"; the warning carrying URL and cause is produced alongside. -/
theorem C2_cex_failed_image_still_replaced :
    (process_images (fun _ => .error "boom") imgFailContent).1 ≠ imgFailContent ∧
    countImgN ((process_images (fun _ => .error "boom") imgFailContent).1) = 0 ∧
    (process_images (fun _ => .error "boom") imgFailContent).1 =
      .elem "article" [] (.cons placeholderNode .nil) ∧
    (process_images (fun _ => .error "boom") imgFailContent).2 =
      ["Failed to download http://x/a.jpg: boom"] :=
  ⟨by decide, by decide, by decide, by decide⟩

/-- C2 witness: the amended theorem applied at the failing fixture
produces the formatted warning on stderr. -/
theorem C2_witness :
    ("Failed to download http://x/a.jpg: boom") ∈
      (process_images (fun _ => Except.error "boom") imgFailContent).2 :=
  (C2_failure_logged_not_skipped (fun _ => Except.error "boom") imgFailContent).1
    (.elem "img" [("src", "http://x/a.jpg")] .nil) "http://x/a.jpg" "boom"
    (by decide) (by decide) rfl

mutual
/-- Filtering the allow-list over a preorder traversal of a node with
no allow-listed element strictly below it yields at most the node
itself. -/
theorem filterAllowed_selfAll : ∀ n, noAllowedBelowN n = true →
    (nodeSelfAll n).filter isAllowedTag = if isAllowedTag n then [n] else []
  | .text s, _ => by
    have hfalse : isAllowedTag (Node.text s) = false := rfl
    simp [nodeSelfAll, hfalse]
  | .elem t a cs, h => by
    have h' : noAllowedInL cs = true := by
      simpa [noAllowedBelowN] using h
    simp only [nodeSelfAll, List.filter_cons, filterAllowed_listAll cs h']
/-- A spine containing no allow-listed element at any depth filters to
nothing. -/
theorem filterAllowed_listAll : ∀ cs, noAllowedInL cs = true →
    (nodeListAll cs).filter isAllowedTag = []
  | .nil, _ => rfl
  | .cons c cs, h => by
    have h' := h
    simp only [noAllowedInL, Bool.and_eq_true] at h'
    obtain ⟨⟨hc1, hc2⟩, hcs⟩ := h'
    simp only [nodeListAll, List.filter_append, filterAllowed_selfAll c hc2,
      filterAllowed_listAll cs hcs]
    have hfc : isAllowedTag c = false := by simpa using hc1
    simp [hfc]
end

/-- Over a flat spine (no allow-listed element nested inside another),
the renderer's recursive `find_all` coincides with filtering the
top-level children. -/
theorem filterAllowed_flat : ∀ cs, flatSpine cs = true →
    (nodeListAll cs).filter isAllowedTag =
      (NodeList.toList cs).filter isAllowedTag
  | .nil, _ => rfl
  | .cons c cs, h => by
    have h' := h
    simp only [flatSpine, Bool.and_eq_true] at h'
    obtain ⟨hc, hcs⟩ := h'
    simp only [nodeListAll, NodeList.toList, List.filter_append,
      List.filter_cons, filterAllowed_selfAll c hc, filterAllowed_flat cs hcs]
    cases hb : isAllowedTag c <;> simp [hb]

/-- C3 (amended): when no allow-listed element is nested inside another
— every top-level child may be allow-listed but has no allow-listed
descendant — `build_html` emits the synthesized h1 line followed by
exactly the serializations of the allow-listed children, once each, in
original document order, with nothing else. -/
theorem C3_flat_fragment_exact (title t : String) (a : List (String × String))
    (cs : NodeList) (hflat : flatSpine cs = true) :
    build_html title (.elem t a cs) none =
      String.intercalate "\n" (("<h1>" ++ title ++ "</h1>") ::
        ((NodeList.toList cs).filter isAllowedTag).map serializeNode) := by
  simp only [build_html, findAll, descendants, Node.children,
    filterAllowed_flat cs hflat]

/-- C3 counterexample: with a paragraph nested inside a blockquote,
`find_all` returns both the blockquote and the inner paragraph, so the
paragraph's serialized form appears twice in the fragment — once inside
the blockquote's serialization and once standalone — where the claim
requires each element to appear exactly once. -/
theorem C3_cex_nested_element_duplicated :
    build_html "T" nestedContent none =
      "<h1>T</h1>\n<blockquote><p>x</p></blockquote>\n<p>x</p>" ∧
    countOcc "<p>x</p>".toList (build_html "T" nestedContent none).toList = 2 ∧
    countOcc "<p>x</p>".toList
      "<h1>T</h1>\n<blockquote><p>x</p></blockquote>".toList = 1 :=
  ⟨by decide, by decide, by decide⟩

/-- C3 witness: the amended theorem applied to a flat article — a
paragraph, an unordered list (whose items are not allow-listed), and a
bare string. -/
theorem C3_witness :
    flatSpine flatSpineFix = true ∧
    build_html "T" (.elem "article" [] flatSpineFix) none =
      String.intercalate "\n" (("<h1>" ++ "T" ++ "</h1>") ::
        ((NodeList.toList flatSpineFix).filter isAllowedTag).map serializeNode) :=
  ⟨by decide, C3_flat_fragment_exact "T" "article" [] flatSpineFix (by decide)⟩

/-- Digit characters are digits. -/
theorem digitCharOf_isDigit {d : Nat} (h : d < 10) :
    (digitCharOf d).isDigit = true := by
  interval_cases d <;> decide

/-- Code point of a digit character. -/
theorem digitCharOf_toNat {d : Nat} (h : d < 10) :
    (digitCharOf d).toNat = 48 + d := by
  interval_cases d <;> decide

/-- A digit is not a dot. -/
theorem isDigit_ne_dot {c : Char} (h : c.isDigit = true) : c ≠ '.' := by
  intro hc
  subst hc
  exact absurd h (by decide)

/-- Every character of a rendered index is a decimal digit. -/
theorem natDigitsAux_all_digit : ∀ fuel n c, c ∈ natDigitsAux fuel n →
    c.isDigit = true := by
  intro fuel
  induction fuel with
  | zero =>
    intro n c hc
    simp [natDigitsAux] at hc
  | succ f ih =>
    intro n c hc
    by_cases h : n < 10
    · simp only [natDigitsAux, if_pos h] at hc
      simp at hc
      subst hc
      exact digitCharOf_isDigit h
    · simp only [natDigitsAux, if_neg h] at hc
      rcases List.mem_append.mp hc with h1 | h2
      · exact ih _ _ h1
      · simp at h2
        subst h2
        exact digitCharOf_isDigit (Nat.mod_lt _ (by omega))

/-- A rendered index is never empty. -/
theorem natDigitsAux_ne_nil (fuel n : Nat) : natDigitsAux (fuel + 1) n ≠ [] := by
  by_cases h : n < 10
  · simp [natDigitsAux, if_pos h]
  · simp [natDigitsAux, if_neg h]

/-- Decoder step for one appended digit. -/
theorem digitsVal_append (l : List Char) (c : Char) :
    digitsVal (l ++ [c]) = 10 * digitsVal l + (c.toNat - 48) := by
  simp [digitsVal, List.foldl_append]

/-- The decoder inverts the renderer (given enough fuel). -/
theorem natDigitsAux_val : ∀ fuel n, n < fuel →
    digitsVal (natDigitsAux fuel n) = n := by
  intro fuel
  induction fuel with
  | zero =>
    intro n h
    omega
  | succ f ih =>
    intro n h
    by_cases h10 : n < 10
    · simp only [natDigitsAux, if_pos h10]
      simp [digitsVal, digitCharOf_toNat h10]
    · simp only [natDigitsAux, if_neg h10, digitsVal_append]
      have hdiv : n / 10 < f := by
        have h1 : n / 10 < n := Nat.div_lt_self (by omega) (by omega)
        omega
      rw [ih (n / 10) hdiv]
      have hmod := Nat.div_add_mod n 10
      have hm : (digitCharOf (n % 10)).toNat = 48 + n % 10 :=
        digitCharOf_toNat (Nat.mod_lt _ (by omega))
      omega

/-- Round trip for the index rendering. -/
theorem natDigits_val (n : Nat) : digitsVal (natDigits n) = n :=
  natDigitsAux_val (n + 1) n (by omega)

/-- Distinct indices render to distinct digit strings. -/
theorem natDigits_inj {m n : Nat} (h : natDigits m = natDigits n) : m = n := by
  have hm := natDigits_val m
  have hn := natDigits_val n
  rw [h] at hm
  omega

/-- All characters of a rendered index are digits. -/
theorem natDigits_all_digit {n : Nat} {c : Char} (h : c ∈ natDigits n) :
    c.isDigit = true :=
  natDigitsAux_all_digit (n + 1) n c h

/-- Taking up to the first dot skips a dot-free block entirely. -/
theorem takeWhile_append_nodot : ∀ (s e : List Char), (∀ c ∈ s, c ≠ '.') →
    (s ++ '.' :: e).takeWhile (fun c => c != '.') = s := by
  intro s
  induction s with
  | nil =>
    intro e h
    simp [List.takeWhile_cons]
  | cons a s ih =>
    intro e h
    have ha : a ≠ '.' := h a (List.mem_cons_self a s)
    have hb : (a != '.') = true := by simpa using ha
    simp only [List.cons_append, List.takeWhile_cons, hb, if_true]
    rw [ih e (fun c hc => h c (List.mem_cons_of_mem a hc))]

/-- Two dot-free blocks followed by dot-initial tails coincide when the
concatenations do. -/
theorem stem_cancel {A B e1 e2 : List Char}
    (hA : ∀ c ∈ A, c ≠ '.') (hB : ∀ c ∈ B, c ≠ '.')
    (h : A ++ '.' :: e1 = B ++ '.' :: e2) : A = B := by
  have h1 := takeWhile_append_nodot A e1 hA
  have h2 := takeWhile_append_nodot B e2 hB
  rw [← h1, ← h2, h]

/-- Core disjointness: a stem built from a prefix and a digit run can
never equal the stem built from the gallery-prefixed form of the same
prefix, whatever the two indices: the length gap forces a character of
the first digit run to line up with the underscore separator of the
second. -/
theorem stems_distinct (P D1 D2 : List Char)
    (hD1 : ∀ c ∈ D1, c.isDigit = true) :
    P ++ '_' :: D1 ≠ ("gallery_".toList ++ P) ++ '_' :: D2 := by
  intro hstem
  have hlen : D1.length = D2.length + 8 := by
    have hl := congrArg List.length hstem
    simp [List.length_append] at hl
    omega
  have hrev := congrArg List.reverse hstem
  simp only [List.reverse_append, List.reverse_cons] at hrev
  -- hrev : (D1.reverse ++ ['_']) ++ P.reverse
  --      = (D2.reverse ++ ['_']) ++ (P.reverse ++ "gallery_".toList.reverse)
  have hL : ((D1.reverse ++ ['_']) ++ P.reverse)[D2.length]? =
      D1.reverse[D2.length]? := by
    rw [List.append_assoc, List.getElem?_append]
    simp [hlen]
  have hR : ((D2.reverse ++ ['_']) ++ (P.reverse ++ "gallery_".toList.reverse))[D2.length]? =
      some '_' := by
    rw [List.append_assoc, List.getElem?_append_right (by simp)]
    simp
  have hcombine : D1.reverse[D2.length]? = some '_' := by
    rw [← hL, hrev, hR]
  obtain ⟨hlt, hval⟩ := List.getElem?_eq_some.mp hcombine
  have hmem : '_' ∈ D1.reverse := hval ▸ List.getElem_mem hlt
  have hdig := hD1 '_' (List.mem_reverse.mp hmem)
  exact absurd hdig (by decide)

/-- Characters of the filename character class are not dots. -/
theorem isPrefChar_ne_dot {c : Char} (h : isPrefChar c = true) : c ≠ '.' := by
  intro hc
  subst hc
  exact absurd h (by decide)

/-- Every character of a sanitized title-derived prefix lies in the
class `[a-z0-9_]`. -/
theorem sanitize_chars {title : String} {c : Char}
    (hc : c ∈ ( sanitize_title_prefix title).data) : isPrefChar c = true := by
  simp only [ sanitize_title_prefix] at hc
  split at hc
  · have : c ∈ "image".data := hc
    simp [String.data] at this
    rcases this with rfl | rfl | rfl | rfl | rfl <;> decide
  · have h2 : c ∈ ((pyLower (spacesToUnderscores (pyStrip title))).toList.filter
        isPrefChar).take 10 := hc
    exact (List.mem_filter.mp (List.mem_of_mem_take h2)).2

/-- No character of the gallery marker is a dot. -/
theorem gallery_chars : ∀ c ∈ "gallery_".toList, c ≠ '.' := by decide

/-- The splitext model yields nothing or a dot-initial suffix. -/
theorem extOfBase_head (b : List Char) :
    extOfBase b = [] ∨ ∃ t, extOfBase b = '.' :: t := by
  dsimp only [extOfBase]
  split
  · exact Or.inl rfl
  · split
    · exact Or.inl rfl
    · exact Or.inr ⟨_, rfl⟩

/-- The extension used by `download_image` always starts with a dot. -/
theorem imageExt_head (url : String) : ∃ t, imageExt url = '.' :: t := by
  unfold imageExt
  rcases extOfBase_head (afterLastSlash (splitQuery url)) with h | ⟨t, h⟩
  · refine ⟨"jpg".toList, ?_⟩
    simp [h]
  · have hne : extOfBase (afterLastSlash (splitQuery url)) ≠ [] := by
      rw [h]
      simp
    refine ⟨t, ?_⟩
    simp [hne, h]

/-- Character spelling of the generated filename. -/
theorem download_image_name_data (url pref : String) (i : Nat) :
    (download_image_name url pref i).data =
      pref.data ++ '_' :: (natDigits i ++ imageExt url) := by
  simp [download_image_name, String.data_append, List.append_assoc]

/-- Same prefix, distinct indices: the digit runs must differ. -/
theorem name_inj_same (P : List Char) (i j : Nat) (e1 e2 : List Char)
    (h : P ++ '_' :: (natDigits i ++ '.' :: e1) =
      P ++ '_' :: (natDigits j ++ '.' :: e2)) : i = j := by
  have h1 : natDigits i ++ '.' :: e1 = natDigits j ++ '.' :: e2 := by
    have h0 := List.append_cancel_left h
    exact (List.cons.injEq _ _ _ _).mp h0 |>.2
  exact natDigits_inj (stem_cancel
    (fun c hc => isDigit_ne_dot (natDigits_all_digit hc))
    (fun c hc => isDigit_ne_dot (natDigits_all_digit hc)) h1)

/-- Post prefix versus gallery prefix: the names can never collide. -/
theorem name_clash_cross (P : List Char) (hP : ∀ c ∈ P, c ≠ '.')
    (i j : Nat) (e1 e2 : List Char) :
    P ++ '_' :: (natDigits i ++ '.' :: e1) ≠
      ("gallery_".toList ++ P) ++ '_' :: (natDigits j ++ '.' :: e2) := by
  intro h
  have h' : (P ++ '_' :: natDigits i) ++ '.' :: e1 =
      (("gallery_".toList ++ P) ++ '_' :: natDigits j) ++ '.' :: e2 := by
    simpa [List.append_assoc] using h
  have hstem : P ++ '_' :: natDigits i =
      ("gallery_".toList ++ P) ++ '_' :: natDigits j := by
    refine stem_cancel ?_ ?_ h'
    · intro c hc
      rcases List.mem_append.mp hc with hcP | hcD
      · exact hP c hcP
      · rcases List.mem_cons.mp hcD with rfl | hcD2
        · decide
        · exact isDigit_ne_dot (natDigits_all_digit hcD2)
    · intro c hc
      rcases List.mem_append.mp hc with hcG | hcD
      · rcases List.mem_append.mp hcG with hcg | hcP
        · exact gallery_chars c hcg
        · exact hP c hcP
      · rcases List.mem_cons.mp hcD with rfl | hcD2
        · decide
        · exact isDigit_ne_dot (natDigits_all_digit hcD2)
  exact stems_distinct P (natDigits i) (natDigits j)
    (fun c hc => natDigits_all_digit hc) hstem

/-- C5: within one run the deterministic naming policy never collides.
Post-body images with the same title-derived prefix and distinct
1-based indices get distinct filenames whatever their URL extensions;
gallery images (prefix `gallery_` plus the same title prefix, their own
independent 1-based index sequence) likewise get distinct filenames for
distinct indices; and a gallery image can never receive the same
filename as a post-body image, so no download of the run overwrites an
earlier one in the shared images directory. -/
theorem C5_filenames_unique (title url1 url2 : String) (i j : Nat) :
    (i ≠ j → download_image_name url1 ( sanitize_title_prefix title) i ≠
      download_image_name url2 ( sanitize_title_prefix title) j) ∧
    (i ≠ j →
      download_image_name url1 ("gallery_" ++ sanitize_title_prefix title) i ≠
      download_image_name url2 ("gallery_" ++ sanitize_title_prefix title) j) ∧
    download_image_name url1 ( sanitize_title_prefix title) i ≠
      download_image_name url2 ("gallery_" ++ sanitize_title_prefix title) j := by
  obtain ⟨t1, he1⟩ := imageExt_head url1
  obtain ⟨t2, he2⟩ := imageExt_head url2
  refine ⟨?_, ?_, ?_⟩
  · intro hij heq
    have hdata := congrArg String.data heq
    rw [download_image_name_data, download_image_name_data, he1, he2] at hdata
    exact hij (name_inj_same _ i j t1 t2 hdata)
  · intro hij heq
    have hdata := congrArg String.data heq
    rw [download_image_name_data, download_image_name_data, he1, he2] at hdata
    exact hij (name_inj_same _ i j t1 t2 hdata)
  · intro heq
    have hdata := congrArg String.data heq
    rw [download_image_name_data, download_image_name_data, he1, he2] at hdata
    rw [String.data_append] at hdata
    exact name_clash_cross ( sanitize_title_prefix title).data
      (fun c hc => isPrefChar_ne_dot (sanitize_chars hc)) i j t1 t2 hdata

/-- C5 witness: concrete names drawn from the same run are pairwise
distinct — consecutive post-body images, consecutive gallery images,
and a post-body image against the first gallery image, even with the
adversarial title "Gallery". -/
theorem C5_witness :
    download_image_name "https://x/a.jpg" ( sanitize_title_prefix "Gallery") 1 ≠
      download_image_name "https://x/b.png" ( sanitize_title_prefix "Gallery") 2 ∧
    download_image_name "https://x/a.jpg"
        ("gallery_" ++ sanitize_title_prefix "Gallery") 1 ≠
      download_image_name "https://x/b.png"
        ("gallery_" ++ sanitize_title_prefix "Gallery") 2 ∧
    download_image_name "https://x/a.jpg" ( sanitize_title_prefix "Gallery") 1 ≠
      download_image_name "https://x/a.jpg"
        ("gallery_" ++ sanitize_title_prefix "Gallery") 1 :=
  ⟨(C5_filenames_unique "Gallery" "https://x/a.jpg" "https://x/b.png" 1 2).1
      (by decide),
   (C5_filenames_unique "Gallery" "https://x/a.jpg" "https://x/b.png" 1 2).2.1
      (by decide),
   (C5_filenames_unique "Gallery" "https://x/a.jpg" "https://x/a.jpg" 1 1).2.2⟩

/-- C7: when the original page carries a gallery link but fetching the
gallery page raises a transport error, the run completes successfully:
the warning (with the cause) goes to stderr, the main fragment is still
built — with no gallery description passed to the renderer, so no
gallery trailer is appended — and written to the post file, and not a
single gallery image download is attempted. -/
theorem C7_gallery_failure_isolated (pages : String → Except String Node)
    (dl : String → Except String Unit) (url glink e : String)
    (doc content : Node)
    (h1 : pages url = .ok doc)
    (h2 : find_gallery_link doc url = some glink)
    (h3 : pages glink = .error e)
    (h4 : (parse_post doc).2 = some content) :
    mainModel pages dl url = .ok {
      stderrLog := ("Failed to retrieve gallery page: " ++ e) ::
        (process_images dl content).2,
      stdoutLog := ["Wrote " ++ sanitize_post_name (parse_post doc).1 ++ "/" ++
        sanitize_post_name (parse_post doc).1 ++ ".html"],
      written := [(sanitize_post_name (parse_post doc).1 ++ "/" ++
          sanitize_post_name (parse_post doc).1 ++ ".html",
        removeFirstSentinel (build_html (parse_post doc).1
          (strip_paragraph_classes (processImagesTree content)) none))],
      imgAttempts := downloadAttempts content,
      galleryAttempts := [],
      exitCode := 0 } := by
  simp only [mainModel, h1, h2, h3, h4, process_images]
  simp [String.append_assoc]

/-- C7 witness: on the concrete fixture (post page resolves, gallery
page times out, every image download would succeed) the run writes the
plain fragment, logs exactly the gallery warning, and attempts no
gallery downloads. -/
theorem C7_witness :
    mainModel galleryPages (fun _ => Except.ok ()) "https://site/post" =
      .ok { stderrLog := ["Failed to retrieve gallery page: timeout"],
            stdoutLog := ["Wrote Untitled_Post/Untitled_Post.html"],
            written := [("Untitled_Post/Untitled_Post.html",
              "<h1>Untitled Post</h1>\n<p>Hello</p>")],
            imgAttempts := [], galleryAttempts := [], exitCode := 0 } := by
  have h := C7_gallery_failure_isolated galleryPages (fun _ => Except.ok ())
    "https://site/post" "https://site/gallery#/g1" "timeout" galleryDoc
    galleryArticle (by decide) (by decide) (by decide) (by decide)
  exact h.trans (by decide)
